import Mathlib

/-!
Verification of the restlink route/documentation synthesis engine.

This file gives a shallow embedding of the parts of the `restlink` Python
package that compile declarative schema descriptions into concrete URL
rules, transfer functions and OpenAPI documentation:

* `src/restlink/api.py` — the `API` class (path computation, documentation
  generation and regeneration);
* `src/restlink/schema.py` — `SchemaREST` (the declarative `_method_map_`,
  `exposed_methods`, the REST actions and their permission checks, and the
  documentation helpers);
* `src/restlink/schema_db.py` — `SchemaDB` (database-backed actions);
* `src/restlink/exposer.py` — `Exposer` (route creation, transfer
  functions, authenticator plumbing, schema registration);
* `src/restlink/exposer_flask.py` — `ExposerFlask` (immediate vs deferred
  URL-rule delivery to the Flask app).

Python strings are embedded as Lean `String`s, Python dicts as association
lists that preserve insertion order (Python ≥ 3.7 dict semantics), raised
exceptions as `Except`, and `None`-able values as `Option`.
-/

namespace Restlink

/-! ## Python string / path primitives

`os.path.join` (POSIX flavour) as used by `API.path_root_get`,
`API.path_resource_get` and `API.path_get_docs`.  For each extra component
`b`: if `b` starts with the separator the accumulated result is discarded;
otherwise `b` is appended, inserting a separator unless the accumulator is
empty or already ends with one.
-/

/-- `s.startswith("/")` on a Python `str`. -/
def startsWithSlash (s : String) : Bool :=
  s.data.head? = some '/'

/-- `s.endswith("/")` on a Python `str`. -/
def endsWithSlash (s : String) : Bool :=
  s.data.getLast? = some '/'

/-- One step of POSIX `os.path.join`: join accumulated path `a` with the
next component `b`. -/
def osJoin2 (a b : String) : String :=
  if startsWithSlash b then b
  else if a.data = [] ∨ endsWithSlash a then a ++ b
  else a ++ "/" ++ b

/-- POSIX `os.path.join a p₁ … pₙ`, folding `osJoin2` from the left. -/
def osJoin (a : String) (ps : List String) : String :=
  ps.foldl osJoin2 a

/-- `s.lstrip("/")` on a Python `str`. -/
def lstripSlash (s : String) : String :=
  ⟨s.data.dropWhile (fun c => c = '/')⟩

/-! `pathlib.PurePosixPath(p).stem`, used by `SchemaREST.name`:
the final path component of `p`, with its last suffix removed. -/

/-- Split a character list on `'/'` boundaries. -/
def splitOnSlash : List Char → List (List Char)
  | [] => [[]]
  | c :: rest =>
    let r := splitOnSlash rest
    if c = '/' then [] :: r
    else
      match r with
      | [] => [[c]]
      | h :: t => (c :: h) :: t

/-- The normalized components of a POSIX path: empty components and `"."`
components are dropped, as `pathlib` does. -/
def pathParts (l : List Char) : List (List Char) :=
  (splitOnSlash l).filter (fun c => ¬(c = [] ∨ c = ['.']))

/-- Index of the last `'.'` in a character list (Python `str.rfind(".")`
restricted to a found result). -/
def rfindDot : List Char → Option Nat
  | [] => none
  | c :: rest =>
    match rfindDot rest with
    | some i => some (i + 1)
    | none => if c = '.' then some 0 else none

/-- `pathlib`'s stem computation on the final component `nm`: drop the part
from the last `'.'` onwards when that dot is neither first nor last. -/
def stemOfName (nm : List Char) : List Char :=
  match rfindDot nm with
  | none => nm
  | some i => if 0 < i ∧ i + 1 < nm.length then nm.take i else nm

/-- `SchemaREST.name`: `Path(self._rest_path_.lstrip('/')).stem`. -/
def schemaNameOfPath (rest_path : String) : String :=
  ⟨stemOfName (((pathParts (lstripSlash rest_path).data).getLastD []))⟩

/-! ## Basic facts about the path primitives -/

theorem data_eq_nil_iff (s : String) : s.data = [] ↔ s = "" := by
  constructor
  · intro h
    cases s with
    | mk d =>
      have hd : d = [] := h
      subst hd; rfl
  · intro h; subst h; rfl

theorem append_ne_empty_right (a b : String) (hb : b ≠ "") : a ++ b ≠ "" := by
  intro h
  have h2 : (a ++ b).data = [] := (data_eq_nil_iff _).2 h
  rw [String.data_append] at h2
  exact hb ((data_eq_nil_iff b).1 (List.append_eq_nil.mp h2).2)

theorem endsWithSlash_append (a b : String) (hb : b ≠ "") :
    endsWithSlash (a ++ b) = endsWithSlash b := by
  have hb' : b.data ≠ [] := fun h => hb ((data_eq_nil_iff b).1 h)
  unfold endsWithSlash
  rw [String.data_append, List.getLast?_append_of_ne_nil _ hb']

/-- A "clean" path segment: non-empty and with no leading or trailing
slash.  Schema names, API names and versions are expected to be of this
form (spec: the version "should not contain invalid characters"). -/
def cleanSeg (s : String) : Prop :=
  s ≠ "" ∧ startsWithSlash s = false ∧ endsWithSlash s = false

instance (s : String) : Decidable (cleanSeg s) := by
  unfold cleanSeg; infer_instance

theorem osJoin2_clean (a b : String) (ha : a ≠ "") (ha2 : endsWithSlash a = false)
    (hb : cleanSeg b) : osJoin2 a b = a ++ "/" ++ b := by
  obtain ⟨hb1, hb2, hb3⟩ := hb
  unfold osJoin2
  rw [hb2]
  rw [if_neg (by decide)]
  rw [if_neg]
  intro h
  rcases h with h | h
  · exact ha ((data_eq_nil_iff a).1 h)
  · rw [ha2] at h
    exact absurd h (by decide)

theorem osJoin2_slash (b : String) (hb : cleanSeg b) : osJoin2 "/" b = "/" ++ b := by
  obtain ⟨hb1, hb2, hb3⟩ := hb
  unfold osJoin2
  rw [hb2]
  rw [if_neg (by decide)]
  rw [if_pos (Or.inr (by decide))]

theorem slash_append_clean (b : String) (hb : cleanSeg b) :
    ("/" ++ b) ≠ "" ∧ endsWithSlash ("/" ++ b) = false := by
  obtain ⟨hb1, hb2, hb3⟩ := hb
  exact ⟨append_ne_empty_right _ _ hb1, by rw [endsWithSlash_append _ _ hb1]; exact hb3⟩

theorem append_seg_clean (a b : String) (hb : cleanSeg b) :
    (a ++ "/" ++ b) ≠ "" ∧ endsWithSlash (a ++ "/" ++ b) = false := by
  obtain ⟨hb1, hb2, hb3⟩ := hb
  rw [String.append_assoc]
  have h2 : ("/" ++ b) ≠ "" := (slash_append_clean b ⟨hb1, hb2, hb3⟩).1
  refine ⟨append_ne_empty_right _ _ h2, ?_⟩
  rw [endsWithSlash_append _ _ h2]
  exact (slash_append_clean b ⟨hb1, hb2, hb3⟩).2

/-! ## Python dict operations (insertion-ordered association lists) -/

/-- `d[k] = v` on a Python dict: replace in place when the key exists,
append otherwise. -/
def dictSet {α β : Type} [DecidableEq α] : List (α × β) → α → β → List (α × β)
  | [], k, v => [(k, v)]
  | (k', v') :: rest, k, v =>
    if k' = k then (k, v) :: rest else (k', v') :: dictSet rest k v

/-- `d.update(d2)` on a Python dict. -/
def dictUpdate {α β : Type} [DecidableEq α] (d d2 : List (α × β)) : List (α × β) :=
  d2.foldl (fun acc kv => dictSet acc kv.1 kv.2) d

/-! ## The declarative schema model (`schema.py`)

`SchemaREST` carries a declarative `_method_map_` of
HTTP verb → route type → method data.  The dict literals appearing as
response/request-body schemas are embedded as `DocVal`: the sentinel
string `"_schema_"` gets its own constructor, any other (inline JSON
object) value is an opaque tagged literal.
-/

/-- A value appearing under the `data` key or as a response schema in the
`_method_map_`. -/
inductive DocVal : Type where
  | schemaTok : DocVal
  | lit : String → DocVal
deriving DecidableEq

/-- One entry of a method's `params` map. -/
structure ParamData where
  required : Bool
  description : String
deriving DecidableEq

/-- One `_method_map_` entry (the value at `_method_map_[verb][route_type]`).
Optional fields model keys that may be absent from the Python dict. -/
structure MethodData where
  function : Option String
  params : Option (List (String × ParamData))
  data : Option DocVal
  responses : Option (List (String × Option DocVal))
deriving DecidableEq

/-- The JSON object `{'type':'object','properties':{'error':{'type':'string'}}}`
used for error responses throughout the default `_method_map_`. -/
def errObj : Option DocVal := some (DocVal.lit "error_object")

/-- The default `SchemaREST._method_map_`, in its Python iteration order. -/
def methodMapDefault : List (String × List (String × MethodData)) :=
  [ ("GET",
      [ ("specific",
          { function := some "get", params := none, data := none,
            responses := some [("200", some DocVal.schemaTok), ("403", errObj), ("404", errObj)] }),
        ("general",
          { function := some "list",
            params := some [("filter",
              { required := false,
                description := "URL-encoded key/value data which is used to filter the returned ID list." })],
            data := none,
            responses := some [("200", some (DocVal.lit "id_list")), ("400", errObj), ("403", errObj)] }) ]),
    ("POST",
      [ ("general",
          { function := some "post", params := none, data := some DocVal.schemaTok,
            responses := some [("200", some DocVal.schemaTok), ("400", errObj), ("403", errObj), ("404", errObj)] }) ]),
    ("PUT",
      [ ("specific",
          { function := some "put", params := none, data := some DocVal.schemaTok,
            responses := some [("200", some DocVal.schemaTok), ("400", errObj), ("403", errObj), ("404", errObj)] }) ]),
    ("DELETE",
      [ ("specific",
          { function := some "delete", params := none, data := none,
            responses := some [("200", none), ("400", errObj), ("403", errObj), ("404", errObj)] }) ]) ]

/-- A declarative schema description: its `_rest_path_`, its
`_allowed_methods_` whitelist, and its `_method_map_`. -/
structure SchemaDesc where
  restPath : String
  allowedMethods : List String
  methodMap : List (String × List (String × MethodData))

/-- `SchemaREST.name` for a schema description. -/
def SchemaDesc.name (s : SchemaDesc) : String :=
  schemaNameOfPath s.restPath

/-- `SchemaREST.exposed_methods`: the flat list of
`(http_verb, route_type, function_name, allowed_params)` tuples, in
`_method_map_` iteration order, restricted to verbs in
`_allowed_methods_`.  `function` is read with `.get('function')` and
`params` with `.get('params', {})`. -/
def exposedMethods (mm : List (String × List (String × MethodData)))
    (allowed : List String) :
    List (String × String × Option String × List (String × ParamData)) :=
  mm.foldl (fun outlist vt =>
    vt.2.foldl (fun outlist2 rtmd =>
      if vt.1 ∈ allowed then
        outlist2 ++ [(vt.1, rtmd.1, rtmd.2.function, rtmd.2.params.getD [])]
      else outlist2) outlist) []

/-- `SchemaREST.exposed_methods` of a schema description. -/
def SchemaDesc.exposedMethods (s : SchemaDesc) :
    List (String × String × Option String × List (String × ParamData)) :=
  Restlink.exposedMethods s.methodMap s.allowedMethods

/-- `SchemaREST.method_get`: `_method_map_.get(http_verb, {}).get(route_type)`,
`none` when the ValueError would be raised. -/
def methodGet (mm : List (String × List (String × MethodData)))
    (http_verb route_type : String) : Option MethodData :=
  ((mm.lookup http_verb).getD []).lookup route_type

/-! ## API path computation (`api.py`) -/

/-- The name/version identity of an `API` instance. -/
structure APIMeta where
  name : String
  version : String
deriving DecidableEq

/-- `API.key`: `f"{self.name}_{self.version}"`. -/
def APIMeta.key (api : APIMeta) : String :=
  api.name ++ "_" ++ api.version

/-- `API.path_root_get`: `os.path.join("/", base_path, name, version)`
(or without `base_path` when it is `None`). -/
def pathRootGet (api : APIMeta) (base_path : Option String) : String :=
  match base_path with
  | none => osJoin "/" [api.name, api.version]
  | some bp => osJoin "/" [bp, api.name, api.version]

/-- `API.path_resource_get`: `os.path.join(path_root, schema.name)`. -/
def pathResourceGet (path_root : String) (schema_name : String) : String :=
  osJoin path_root [schema_name]

/-- `API.path_get_docs`: `os.path.join(path_root, 'docs')`. -/
def pathGetDocs (path_root : String) : String :=
  osJoin path_root ["docs"]

theorem pathRootGet_clean (api : APIMeta) (bp : String)
    (hbp : cleanSeg bp) (hn : cleanSeg api.name) (hv : cleanSeg api.version) :
    pathRootGet api (some bp) = "/" ++ bp ++ "/" ++ api.name ++ "/" ++ api.version := by
  unfold pathRootGet osJoin
  simp only [List.foldl]
  rw [osJoin2_slash bp hbp]
  have h1 := slash_append_clean bp hbp
  rw [osJoin2_clean _ _ h1.1 h1.2 hn]
  have h2 := append_seg_clean ("/" ++ bp) api.name hn
  rw [osJoin2_clean _ _ h2.1 h2.2 hv]

theorem pathRootGet_not_endslash (api : APIMeta) (bp : String)
    (hbp : cleanSeg bp) (hn : cleanSeg api.name) (hv : cleanSeg api.version) :
    pathRootGet api (some bp) ≠ "" ∧ endsWithSlash (pathRootGet api (some bp)) = false := by
  rw [pathRootGet_clean api bp hbp hn hv]
  exact append_seg_clean _ _ hv

theorem pathResourceGet_clean (path_root : String) (sname : String)
    (h1 : path_root ≠ "") (h2 : endsWithSlash path_root = false) (hs : cleanSeg sname) :
    pathResourceGet path_root sname = path_root ++ "/" ++ sname := by
  unfold pathResourceGet osJoin
  simp only [List.foldl]
  exact osJoin2_clean _ _ h1 h2 hs

/-! ## Route creation (`exposer.py`: `_routes_create`, `_route_rule_for`) -/

/-- Python `s[0]` as a 1-character string (used for `route_type[0]`). -/
def pyHead (s : String) : String :=
  ⟨s.data.take 1⟩

/-- A URL rule as handed to `Exposer._route_create`: the path rule, the
endpoint name and the single HTTP method the rule is restricted to. -/
structure Route where
  rule : String
  endpoint : String
  verb : String
deriving DecidableEq

/-- `Exposer._route_rule_for`: the resource path, suffixed with a
flask-style id matcher for "specific" routes. -/
def routeRuleFor (base_path : String) (route_type : String) (api : APIMeta)
    (schema_name : String) : String :=
  let url_base := pathResourceGet (pathRootGet api (some base_path)) schema_name
  if route_type = "general" then url_base
  else url_base ++ "/<string:id>"

/-- The endpoint name built in `Exposer._routes_create`:
`f"{api.name}_{api.version}_{schema.name}_{http_verb}_{route_type[0]}"`. -/
def endpointName (api : APIMeta) (schema_name http_verb route_type : String) : String :=
  api.name ++ "_" ++ api.version ++ "_" ++ schema_name ++ "_" ++ http_verb ++ "_" ++
    pyHead route_type

/-- `Exposer._routes_create`: one call to `_route_create` per entry of
`schema.exposed_methods`, in order. -/
def routesCreate (base_path : String) (api : APIMeta) (schema : SchemaDesc) :
    List Route :=
  schema.exposedMethods.map (fun e =>
    { rule := routeRuleFor base_path e.2.1 api schema.name,
      endpoint := endpointName api schema.name e.1 e.2.1,
      verb := e.1 })

/-! ## Transfer functions (`exposer.py`: `_transfer_function_create`)

The inner `transfer_function(id, data, params)` filters the params dict
down to the allowed names, picks positional arguments according to the
verb/route-type switch, and calls the schema method `function_name` with
those arguments and the surviving params as kwargs.  The call into the
schema is represented syntactically: `SchemaCall` records which method got
invoked with which positional arguments and keyword arguments.  Verb /
route-type combinations that fall through the Python switch leave `args`
unbound (an `UnboundLocalError`), embedded as `none`. -/

/-- A positional argument of a schema method call: the url-matched `id`
or the request body `data`. -/
inductive PyArg (I D : Type) : Type where
  | idArg : I → PyArg I D
  | dataArg : D → PyArg I D
deriving DecidableEq

/-- The schema method invocation performed by a transfer function. -/
structure SchemaCall (I D V : Type) where
  functionName : String
  args : List (PyArg I D)
  kwargs : List (String × V)
deriving DecidableEq

/-- The `args` list chosen by the verb/route-type switch, `none` when the
switch leaves it unbound. -/
def transferArgs {I D : Type} (http_verb route_type : String) (id : I) (data : D) :
    Option (List (PyArg I D)) :=
  if http_verb = "GET" then
    if route_type = "general" then some []
    else some [PyArg.idArg id]
  else if http_verb = "POST" then
    if route_type = "general" then some [PyArg.dataArg data]
    else none
  else if http_verb = "PUT" then
    if route_type = "general" then none
    else some [PyArg.idArg id, PyArg.dataArg data]
  else if http_verb = "DELETE" then
    if route_type = "general" then none
    else some [PyArg.idArg id]
  else none

/-- The transfer function built by `Exposer._transfer_function_create`,
applied to `(id, data, params)`: the resulting schema method call, or
`none` on the invalid combinations. -/
def transferFunction {I D V : Type} (http_verb route_type function_name : String)
    (allowed_params : List String) (id : I) (data : D) (params : List (String × V)) :
    Option (SchemaCall I D V) :=
  let filtered := params.foldl (fun acc p =>
    if p.1 ∈ allowed_params then acc ++ [p] else acc) []
  (transferArgs http_verb route_type id data).map (fun args =>
    { functionName := function_name, args := args, kwargs := filtered })

/-! ## Documentation helpers (`schema.py`: `doc_get_operation_*`) -/

/-- A `schema` field of a documented request body or response: either a
reference by component name (the `"_schema_"` sentinel resolved to
`self.name`) or an inline literal object. -/
inductive DocSchemaRef : Type where
  | byName : String → DocSchemaRef
  | lit : String → DocSchemaRef
deriving DecidableEq

/-- One entry of the documented `parameters` list.  The `id` path
parameter carries `schema: {'type': 'integer'}`; query parameters carry no
`schema` key. -/
structure DocParam where
  name : String
  inLoc : String
  description : String
  required : Bool
  schemaType : Option String
deriving DecidableEq

/-- A documented response: either `{'description': …}` (for a `None`
response spec) or a json content block with a schema. -/
inductive RespDoc : Type where
  | descOnly : String → RespDoc
  | content : DocSchemaRef → RespDoc
deriving DecidableEq

/-- A documented request body: `{'content': {'application/json':
{'schema': …}}}`. -/
structure RequestBody where
  contentSchema : DocSchemaRef
deriving DecidableEq

/-- `SchemaREST.doc_get_operation_params`, `none` when `method_get`
raises. -/
def docGetOperationParams (schema_name : String)
    (mm : List (String × List (String × MethodData)))
    (http_verb route_type : String) : Option (List DocParam) :=
  (methodGet mm http_verb route_type).map (fun md =>
    let allowed_params := md.params.getD []
    let base : List DocParam :=
      if route_type = "specific" then
        [{ name := "id", inLoc := "path", description := schema_name ++ " ID",
           required := true, schemaType := some "integer" }]
      else []
    base ++ allowed_params.map (fun p =>
      { name := p.1, inLoc := "query", description := p.2.description,
        required := p.2.required, schemaType := none }))

/-- `SchemaREST.doc_get_operation_request_body`, `none` when `method_get`
raises; the inner `Option` is the Python `None` result. -/
def docGetOperationRequestBody (schema_name : String)
    (mm : List (String × List (String × MethodData)))
    (http_verb route_type : String) : Option (Option RequestBody) :=
  (methodGet mm http_verb route_type).map (fun md =>
    match md.data with
    | none => none
    | some DocVal.schemaTok => some { contentSchema := DocSchemaRef.byName schema_name }
    | some (DocVal.lit t) => some { contentSchema := DocSchemaRef.lit t })

/-- `SchemaREST.doc_get_operation_response`, `none` when `method_get`
raises. -/
def docGetOperationResponse (schema_name : String)
    (mm : List (String × List (String × MethodData)))
    (http_verb route_type : String) : Option (List (String × RespDoc)) :=
  (methodGet mm http_verb route_type).map (fun md =>
    (md.responses.getD []).map (fun r =>
      match r.2 with
      | none => (r.1, RespDoc.descOnly "Operation success")
      | some DocVal.schemaTok => (r.1, RespDoc.content (DocSchemaRef.byName schema_name))
      | some (DocVal.lit t) => (r.1, RespDoc.content (DocSchemaRef.lit t))))

/-! ## Path documentation assembly (`api.py`: `_doc_add_schema_paths`) -/

/-- One OpenAPI operation dict as assembled by `_doc_add_schema_paths`:
always `parameters` and `responses`, plus `requestBody` exactly when the
request-body helper returned a non-`None` value. -/
structure Operation where
  parameters : List DocParam
  responses : List (String × RespDoc)
  requestBody : Option RequestBody
deriving DecidableEq

/-- The relative documented url for a schema and route type:
`path_resource_get("", schema)`, suffixed with `/{id}` for specific
routes. -/
def docUrlRoute (schema_name route_type : String) : String :=
  let url_rel := pathResourceGet "" schema_name
  if route_type = "general" then url_rel else url_rel ++ "/{id}"

/-- Python `str.lower()` (used as `http_verb.lower()`). -/
def pyLower (s : String) : String :=
  ⟨s.data.map Char.toLower⟩

/-- The operation assembled for one exposed method inside
`_doc_add_schema_paths`, `none` when `method_get` raises. -/
def operationFor (schema_name : String)
    (mm : List (String × List (String × MethodData)))
    (http_verb route_type : String) : Option Operation := do
  let parameters ← docGetOperationParams schema_name mm http_verb route_type
  let request_body ← docGetOperationRequestBody schema_name mm http_verb route_type
  let responses ← docGetOperationResponse schema_name mm http_verb route_type
  pure { parameters := parameters, responses := responses, requestBody := request_body }

/-- One iteration of the `_doc_add_schema_paths` loop: ensure the
`url_route` entry exists, then store the assembled operation under
`http_verb.lower()`.  (`method_get` raising, which cannot happen for a
well-formed method map, leaves the dict unchanged.) -/
def docSchemaPathsStep (schema : SchemaDesc)
    (paths : List (String × List (String × Operation)))
    (e : String × String × Option String × List (String × ParamData)) :
    List (String × List (String × Operation)) :=
  let url_route := docUrlRoute schema.name e.2.1
  let paths1 := if (paths.lookup url_route).isSome then paths
                else dictSet paths url_route []
  match operationFor schema.name schema.methodMap e.1 e.2.1 with
  | none => paths1
  | some op =>
      dictSet paths1 url_route
        (dictSet ((paths1.lookup url_route).getD []) (pyLower e.1) op)

/-- The `paths` dict built locally by `_doc_add_schema_paths`:
`paths[url_route][http_verb.lower()] = operation`, iterating over the
schema's exposed methods. -/
def docSchemaPathsLocal (schema : SchemaDesc) :
    List (String × List (String × Operation)) :=
  schema.exposedMethods.foldl (docSchemaPathsStep schema) []

/-- `APISpec.path(path, operations)`: merge the operations into the spec's
paths dict, creating the path entry when absent. -/
def specPathAdd (spec_paths : List (String × List (String × Operation)))
    (url : String) (ops : List (String × Operation)) :
    List (String × List (String × Operation)) :=
  match spec_paths.lookup url with
  | some existing => dictSet spec_paths url (dictUpdate existing ops)
  | none => spec_paths ++ [(url, ops)]

/-! ## API documentation state (`api.py`) -/

/-- The observable contents of the `APISpec` held by an `API` instance:
the registered component schema names, the paths dict, and the servers
block. -/
structure SpecDoc where
  componentSchemas : List String
  paths : List (String × List (String × Operation))
  servers : List String
deriving DecidableEq

/-- The state of an `API` instance: its identity, its live spec, and the
frozen copy served by `doc_view_fn` (`None` until the first
`docs_regen`). -/
structure APIState where
  meta : APIMeta
  spec : SpecDoc
  snapshot : Option SpecDoc
deriving DecidableEq

/-- A freshly constructed `API`: empty spec, no doc view function yet. -/
def APIState.init (meta : APIMeta) : APIState :=
  { meta := meta,
    spec := { componentSchemas := [], paths := [], servers := [] },
    snapshot := none }

/-- `API.docs_regen`: freeze a copy of the current spec for
`doc_view_fn`. -/
def docsRegen (st : APIState) : APIState :=
  { st with snapshot := some st.spec }

/-- `API.doc_set_servers`: write the single server url and regenerate. -/
def docSetServers (st : APIState) (base_path : Option String) : APIState :=
  docsRegen { st with spec :=
    { st.spec with servers := [pathRootGet st.meta base_path] } }

/-- The spec update performed by `API.doc_add_schema`: register the
component under `schema.name`, then add the path documentation via
`_doc_add_schema_paths`. -/
def docAddSchemaSpec (spec : SpecDoc) (schema : SchemaDesc) : SpecDoc :=
  { spec with
    componentSchemas := spec.componentSchemas ++ [schema.name],
    paths := (docSchemaPathsLocal schema).foldl
      (fun sp e => specPathAdd sp e.1 e.2) spec.paths }

/-- `API.doc_add_schema`: update the spec and regenerate the hosted
document. -/
def docAddSchema (st : APIState) (schema : SchemaDesc) : APIState :=
  docsRegen { st with spec := docAddSchemaSpec st.spec schema }

/-! ## The Exposer registration state machine (`exposer.py`) -/

/-- The observable state of an `Exposer`: the base path, the `_apis` dict
(keyed by `api.key`, holding the API state and the schemas registered
under it), and every URL rule handed to `_route_create` so far. -/
structure ExposerState where
  basePath : String
  apis : List (String × (APIState × List SchemaDesc))
  routes : List Route

/-- A freshly constructed `Exposer`. -/
def ExposerState.init (base_path : String) : ExposerState :=
  { basePath := base_path, apis := [], routes := [] }

/-- `Exposer._register_api`: set the servers block, add the API to
`_apis`, and register the documentation route. -/
def registerAPI (st : ExposerState) (api : APIMeta) : ExposerState :=
  let astate := docSetServers (APIState.init api) (some st.basePath)
  { st with
    apis := dictSet st.apis api.key (astate, []),
    routes := st.routes ++
      [{ rule := pathGetDocs (pathRootGet api (some st.basePath)),
         endpoint := api.name ++ "_" ++ api.version ++ "_docs",
         verb := "GET" }] }

/-- The tail of `Exposer.register_schema` once the API is known: reject
duplicate schema names under one API, record the schema, add it to the
API's documentation, and create its routes. -/
def registerSchemaAux (st1 : ExposerState) (api : APIMeta) (schema : SchemaDesc) :
    Except String ExposerState :=
  match st1.apis.lookup api.key with
  | none => Except.error "unreachable"
  | some (astate, schemas) =>
    if schema.name ∈ schemas.map SchemaDesc.name then
      Except.error ("Schema of name '" ++ schema.name ++ "' already registered to " ++
        api.name ++ " " ++ api.version ++ ".")
    else
      let astate' := docAddSchema astate schema
      let st2 := { st1 with apis := dictSet st1.apis api.key (astate', schemas ++ [schema]) }
      Except.ok { st2 with routes := st2.routes ++ routesCreate st2.basePath api schema }

/-- `Exposer.register_schema`: register the API if unknown, then continue
with `registerSchemaAux`. -/
def registerSchema (st : ExposerState) (api : APIMeta) (schema : SchemaDesc) :
    Except String ExposerState :=
  registerSchemaAux (if (st.apis.lookup api.key).isSome then st else registerAPI st api)
    api schema

/-- A sequence of `register_schema` calls; a raised `ValueError` leaves
the exposer state unchanged and later registrations proceed. -/
def processRegs (st : ExposerState) : List (APIMeta × SchemaDesc) → ExposerState
  | [] => st
  | r :: rest =>
    match registerSchema st r.1 r.2 with
    | Except.ok st' => processRegs st' rest
    | Except.error _ => processRegs st rest

/-! ## Authenticator plumbing (`exposer.py`: `authenticator`,
`authenticator_fn`, `current_accessor`) -/

/-- The authenticator slot of an `Exposer`; the accessor type `A` is
chosen by the end code. -/
structure AuthSlot (A : Type) where
  authFn : Option (Unit → A)

/-- `Exposer.authenticator_fn`: the registered callback, or the raised
`ValueError`. -/
def authenticatorFn {A : Type} (e : AuthSlot A) : Except String (Unit → A) :=
  match e.authFn with
  | none => Except.error
      "No authenticator function has been provided for this restlink exposer."
  | some f => Except.ok f

/-- `Exposer.current_accessor`: call the registered callback on every
access. -/
def currentAccessor {A : Type} (e : AuthSlot A) : Except String A :=
  match authenticatorFn e with
  | Except.error m => Except.error m
  | Except.ok f => Except.ok (f ())

/-- `Exposer.authenticator` used as a decorator: store the callback and
return `authenticator_fn`. -/
def authenticatorSet {A : Type} (e : AuthSlot A) (callback : Unit → A) :
    AuthSlot A × Except String (Unit → A) :=
  let e' : AuthSlot A := { authFn := some callback }
  (e', authenticatorFn e')

/-! ## REST actions and permission gating (`schema.py`: `get`, `post`,
`put`, `delete`, `list`) -/

/-- `RESTException(http_code, message)`. -/
structure RESTException where
  httpCode : Nat
  message : String
deriving DecidableEq

/-- The pieces of a `SchemaREST` instance used by the action methods: the
resource name, the two permission predicates (given `some id` or `none`),
and the overridable `_action()` implementations.  In the base class every
implementation is `pass`; `SchemaDB` and end-code classes override them,
so they are arbitrary here. -/
structure SchemaOps (Dict : Type) where
  name : String
  validate_can_read : Option Nat → Bool
  validate_can_write : Option Nat → Bool
  impl_get : Nat → Except RESTException Dict
  impl_create : Dict → Except RESTException Dict
  impl_update : Nat → Dict → Except RESTException Dict
  impl_delete : Nat → Except RESTException Dict
  impl_list : Option (List (String × String)) → Except RESTException Dict

/-- `SchemaREST.get`. -/
def schemaGet {Dict : Type} (s : SchemaOps Dict) (id : Nat) : Except RESTException Dict :=
  if ¬ s.validate_can_read (some id) then
    Except.error ⟨403, "Accessor does not have read access to " ++ s.name⟩
  else s.impl_get id

/-- `SchemaREST.post`. -/
def schemaPost {Dict : Type} (s : SchemaOps Dict) (data : Dict) : Except RESTException Dict :=
  if ¬ s.validate_can_write none then
    Except.error ⟨403, "Accessor does not have write access to " ++ s.name⟩
  else s.impl_create data

/-- `SchemaREST.put`. -/
def schemaPut {Dict : Type} (s : SchemaOps Dict) (id : Nat) (data : Dict) :
    Except RESTException Dict :=
  if ¬ s.validate_can_write (some id) then
    Except.error ⟨403, "Accessor does not have write access to " ++ s.name⟩
  else s.impl_update id data

/-- `SchemaREST.delete`. -/
def schemaDelete {Dict : Type} (s : SchemaOps Dict) (id : Nat) : Except RESTException Dict :=
  if ¬ s.validate_can_write (some id) then
    Except.error ⟨403, "Accessor does not have write access to " ++ s.name⟩
  else s.impl_delete id

/-- `SchemaREST.list`. -/
def schemaList {Dict : Type} (s : SchemaOps Dict)
    (filter : Option (List (String × String))) : Except RESTException Dict :=
  if ¬ s.validate_can_read none then
    Except.error ⟨403, "Accessor does not have read access to " ++ s.name⟩
  else s.impl_list filter

/-- A result is a 403 `RESTException`. -/
def is403 {α : Type} : Except RESTException α → Prop
  | Except.error e => e.httpCode = 403
  | Except.ok _ => False

instance {α : Type} (r : Except RESTException α) : Decidable (is403 r) := by
  cases r <;> unfold is403 <;> infer_instance

/-! ## Database-backed actions (`schema_db.py`) -/

/-- A database record: field name to value. -/
def DBRec : Type := List (String × String)

instance : DecidableEq DBRec := by unfold DBRec; infer_instance

/-- The persistent store visible to a `SchemaDB`: the table rows keyed by
integer primary key, and a commit counter for the session. -/
structure DBState where
  records : List (Nat × DBRec)
  commits : Nat
deriving DecidableEq

/-- `SchemaDB.record_get_from_db`: `session.get(Model, id)`. -/
def recordGetFromDb (db : DBState) (id : Nat) : Option DBRec :=
  db.records.lookup id

/-- The 404 message `f"{self.name} ID={id} does not exist."`. -/
def noSuchIdMsg (name : String) (id : Nat) : String :=
  name ++ " ID=" ++ toString id ++ " does not exist."

/-- `SchemaDB._get`: fetch and dump a record, 404 when absent.  The store
is returned alongside to make (non-)mutation observable. -/
def dbGet (name : String) (db : DBState) (id : Nat) (dump : DBRec → DBRec) :
    DBState × Except RESTException DBRec :=
  match recordGetFromDb db id with
  | none => (db, Except.error ⟨404, noSuchIdMsg name id⟩)
  | some rec => (db, Except.ok (dump rec))

/-- Apply `setattr(rec, k, v)` for every pair of `data`, as
`SchemaDB._update` does. -/
def applyData (rec : DBRec) (data : List (String × String)) : DBRec :=
  data.foldl (fun r kv => dictSet r kv.1 kv.2) rec

/-- `SchemaDB._update`: 404 when the record is absent; otherwise validate
(400 on failure), apply the data, commit, and dump. -/
def dbUpdate (name : String) (db : DBState) (id : Nat) (data : List (String × String))
    (validateOk : Bool) (dump : DBRec → DBRec) :
    DBState × Except RESTException DBRec :=
  match recordGetFromDb db id with
  | none => (db, Except.error ⟨404, noSuchIdMsg name id⟩)
  | some rec =>
    if ¬ validateOk then
      (db, Except.error ⟨400, "Validation failed"⟩)
    else
      let rec' := applyData rec data
      ({ records := dictSet db.records id rec', commits := db.commits + 1 },
       Except.ok (dump rec'))

/-- `SchemaDB._delete`: 404 when the record is absent; otherwise delete
the row and commit. -/
def dbDelete (name : String) (db : DBState) (id : Nat) :
    DBState × Except RESTException Unit :=
  match recordGetFromDb db id with
  | none => (db, Except.error ⟨404, noSuchIdMsg name id⟩)
  | some _ =>
    ({ records := db.records.filter (fun r => ¬ r.1 = id), commits := db.commits + 1 },
     Except.ok ())

/-! ## Flask rule delivery (`exposer_flask.py`) -/

/-- A url rule tuple as delivered to `Flask.add_url_rule`; `T` stands for
the transfer function. -/
structure FlaskRule (T : Type) where
  rule : String
  endpoint : String
  transferFunction : T
  httpVerb : String

/-- The rule-delivery state of an `ExposerFlask`: the deferred
`_url_rule_queue` and, once `init_app` has run, the list of rules
registered on the Flask app. -/
structure FlaskState (T : Type) where
  queue : List (FlaskRule T)
  app : Option (List (FlaskRule T))

/-- A freshly constructed `ExposerFlask` with no app bound. -/
def FlaskState.empty (T : Type) : FlaskState T :=
  { queue := [], app := none }

/-- `ExposerFlask._route_create`: deliver the rule immediately when the
app is bound, otherwise append it to the deferred queue. -/
def flaskRouteCreate {T : Type} (st : FlaskState T) (r : FlaskRule T) : FlaskState T :=
  match st.app with
  | none => { st with queue := st.queue ++ [r] }
  | some rules => { st with app := some (rules ++ [r]) }

/-- `ExposerFlask.init_app` on a fresh Flask app: bind the app and add
every deferred rule, in queue order. -/
def flaskInitApp {T : Type} (st : FlaskState T) : FlaskState T :=
  { st with app := some st.queue }

/-- The rules that have been delivered to the Flask app. -/
def flaskAppRules {T : Type} (st : FlaskState T) : List (FlaskRule T) :=
  st.app.getD []

/-! ## Helper lemmas -/

theorem foldl_if_append {α β : Type} (c : Prop) [Decidable c] (f : α → β) (l : List α) :
    ∀ acc : List β,
      l.foldl (fun a x => if c then a ++ [f x] else a) acc =
        acc ++ (if c then l.map f else []) := by
  by_cases hc : c
  · simp only [if_pos hc]
    induction l with
    | nil => intro acc; simp
    | cons h t ih =>
      intro acc
      simp only [List.foldl_cons, List.map_cons]
      rw [ih]
      simp
  · simp only [if_neg hc]
    induction l with
    | nil => intro acc; simp
    | cons h t ih =>
      intro acc
      simp only [List.foldl_cons]
      rw [ih]

theorem foldl_filter_append {α : Type} (p : α → Prop) [DecidablePred p] (l : List α) :
    ∀ acc : List α,
      l.foldl (fun a x => if p x then a ++ [x] else a) acc =
        acc ++ l.filter (fun x => decide (p x)) := by
  induction l with
  | nil => intro acc; simp
  | cons h t ih =>
    intro acc
    by_cases hc : p h <;> simp only [List.foldl_cons, hc, if_true, if_false, List.filter_cons,
      decide_eq_true_eq] <;> rw [ih] <;> simp [hc]

/-- `exposedMethods` as a flat comprehension over the method map. -/
theorem exposedMethods_eq_flatMap (mm : List (String × List (String × MethodData)))
    (allowed : List String) :
    exposedMethods mm allowed =
      mm.flatMap (fun vt =>
        if vt.1 ∈ allowed then
          vt.2.map (fun rtmd => (vt.1, rtmd.1, rtmd.2.function, rtmd.2.params.getD []))
        else []) := by
  unfold exposedMethods
  suffices h : ∀ acc : List (String × String × Option String × List (String × ParamData)),
      mm.foldl (fun outlist vt =>
        vt.2.foldl (fun outlist2 rtmd =>
          if vt.1 ∈ allowed then
            outlist2 ++ [(vt.1, rtmd.1, rtmd.2.function, rtmd.2.params.getD [])]
          else outlist2) outlist) acc =
      acc ++ mm.flatMap (fun vt =>
        if vt.1 ∈ allowed then
          vt.2.map (fun rtmd => (vt.1, rtmd.1, rtmd.2.function, rtmd.2.params.getD []))
        else []) by
    simpa using h []
  induction mm with
  | nil => intro acc; simp
  | cons vt rest ih =>
    intro acc
    simp only [List.foldl_cons, List.flatMap_cons]
    rw [foldl_if_append, ih, List.append_assoc]

theorem flatMap_if_filter (mm : List (String × List (String × MethodData)))
    (allowed : List String) :
    mm.flatMap (fun vt =>
        if vt.1 ∈ allowed then
          vt.2.map (fun rtmd => (vt.1, rtmd.1, rtmd.2.function, rtmd.2.params.getD []))
        else []) =
      (mm.flatMap (fun vt =>
        vt.2.map (fun rtmd => (vt.1, rtmd.1, rtmd.2.function, rtmd.2.params.getD [])))).filter
          (fun e => decide (e.1 ∈ allowed)) := by
  induction mm with
  | nil => rfl
  | cons vt rest ih =>
    simp only [List.flatMap_cons, List.filter_append]
    rw [ih, List.filter_map]
    by_cases hm : vt.1 ∈ allowed
    · rw [if_pos hm]
      congr 1
      rw [List.filter_eq_self.mpr]
      intro a _
      simp [hm]
    · simp [hm, Function.comp]

/-- C5: `SchemaREST.exposed_methods` returns exactly the entries of the
declarative `_method_map_` whose verb appears in `_allowed_methods_`, in
`_method_map_` iteration order, each tuple carrying the handler name
stored under `'function'` and the parameter map stored under `'params'`
(empty when absent). -/
theorem exposed_methods_spec (mm : List (String × List (String × MethodData)))
    (allowed : List String) :
    exposedMethods mm allowed =
      (mm.flatMap (fun vt =>
        vt.2.map (fun rtmd => (vt.1, rtmd.1, rtmd.2.function, rtmd.2.params.getD [])))).filter
          (fun e => decide (e.1 ∈ allowed)) :=
  (exposedMethods_eq_flatMap mm allowed).trans (flatMap_if_filter mm allowed)

/-! ## C2: the transfer function dispatch -/

/-- The `(http_verb, route_type)` pairs present in a method map. -/
def methodMapPairs (mm : List (String × List (String × MethodData))) :
    List (String × String) :=
  mm.flatMap (fun vt => vt.2.map (fun rtmd => (vt.1, rtmd.1)))

theorem params_foldl_filter {V : Type} (allowed : List String)
    (params : List (String × V)) :
    params.foldl (fun acc p => if p.1 ∈ allowed then acc ++ [p] else acc) [] =
      params.filter (fun p => decide (p.1 ∈ allowed)) := by
  suffices h : ∀ acc : List (String × V),
      params.foldl (fun acc p => if p.1 ∈ allowed then acc ++ [p] else acc) acc =
        acc ++ params.filter (fun p => decide (p.1 ∈ allowed)) by
    simpa using h []
  induction params with
  | nil => intro acc; simp
  | cons p rest ih =>
    intro acc
    by_cases hp : p.1 ∈ allowed
    · simp only [List.foldl_cons, if_pos hp, List.filter_cons, decide_eq_true_eq, hp, if_true]
      rw [ih]
      simp
    · simp only [List.foldl_cons, if_neg hp, List.filter_cons, decide_eq_true_eq, hp, if_false]
      rw [ih]

/-- C2: for every `(http_verb, route_type)` pair of the default
`_method_map_`, the transfer function drops every param not in
`allowed_params` and calls the schema method named `function_name` with
the positional arguments determined by the verb and route type —
GET/general: none; GET/specific: `(id)`; POST/general: `(data)`;
PUT/specific: `(id, data)`; DELETE/specific: `(id)` — passing the
surviving params as keyword arguments. -/
theorem transfer_function_spec {I D V : Type} (http_verb route_type : String)
    (h : (http_verb, route_type) ∈ methodMapPairs methodMapDefault)
    (function_name : String) (allowed_params : List String) (id : I) (data : D)
    (params : List (String × V)) :
    transferFunction http_verb route_type function_name allowed_params id data params =
      some { functionName := function_name,
             args :=
               if (http_verb, route_type) = ("GET", "general") then []
               else if (http_verb, route_type) = ("GET", "specific") then [PyArg.idArg id]
               else if (http_verb, route_type) = ("POST", "general") then [PyArg.dataArg data]
               else if (http_verb, route_type) = ("PUT", "specific") then
                 [PyArg.idArg id, PyArg.dataArg data]
               else [PyArg.idArg id],
             kwargs := params.filter (fun p => decide (p.1 ∈ allowed_params)) } := by
  have hp : (http_verb, route_type) = ("GET", "specific") ∨
      (http_verb, route_type) = ("GET", "general") ∨
      (http_verb, route_type) = ("POST", "general") ∨
      (http_verb, route_type) = ("PUT", "specific") ∨
      (http_verb, route_type) = ("DELETE", "specific") := by
    simpa [methodMapPairs, methodMapDefault] using h
  unfold transferFunction
  rw [params_foldl_filter]
  rcases hp with h | h | h | h | h <;>
    (rw [Prod.mk.injEq] at h; obtain ⟨h1, h2⟩ := h; subst h1; subst h2) <;>
    simp [transferArgs]

/-- C2 witness: the PUT/specific entry at concrete inputs. -/
theorem transfer_function_spec_witness :
    ("PUT", "specific") ∈ methodMapPairs methodMapDefault ∧
      transferFunction "PUT" "specific" "put" ["filter"] (3 : Nat) "body"
          [("filter", "x"), ("other", "y")] =
        some { functionName := "put",
               args := [PyArg.idArg 3, PyArg.dataArg "body"],
               kwargs := [("filter", "x")] } := by
  constructor
  · decide
  · have h := transfer_function_spec (I := Nat) (D := String) (V := String)
      "PUT" "specific" (by decide) "put" ["filter"] 3 "body"
      [("filter", "x"), ("other", "y")]
    rw [h]
    decide

/-! ## C7: authenticator plumbing -/

/-- C7: the exposer never authenticates by itself — `current_accessor`
evaluates the registered callback on every access and raises `ValueError`
exactly when no callback is registered; registering via `authenticator`
stores the callback and returns it. -/
theorem current_accessor_spec (A : Type) (e : AuthSlot A) (cb : Unit → A) :
    currentAccessor e = (match e.authFn with
      | none => Except.error
          "No authenticator function has been provided for this restlink exposer."
      | some f => Except.ok (f ())) ∧
    authenticatorFn e = (match e.authFn with
      | none => Except.error
          "No authenticator function has been provided for this restlink exposer."
      | some f => Except.ok f) ∧
    (authenticatorSet e cb).1.authFn = some cb ∧
    (authenticatorSet e cb).2 = Except.ok cb := by
  obtain ⟨fn⟩ := e
  cases fn <;> exact ⟨rfl, rfl, rfl, rfl⟩

/-! ## C8: permission gating of the REST actions -/

/-- No `_action()` implementation of this repository raises a 403: the
base class implementations are `pass`, and `SchemaDB` raises only 400,
401 and 404. -/
def NoImpl403 {Dict : Type} (s : SchemaOps Dict) : Prop :=
  (∀ i, ¬ is403 (s.impl_get i)) ∧ (∀ d, ¬ is403 (s.impl_create d)) ∧
  (∀ i d, ¬ is403 (s.impl_update i d)) ∧ (∀ i, ¬ is403 (s.impl_delete i)) ∧
  (∀ f, ¬ is403 (s.impl_list f))

/-- C8: each action raises a 403 `RESTException` exactly when its
permission predicate refuses (`validate_can_read` with the id for `get`,
with `None` for `list`; `validate_can_write` with `None` for `post`, with
the id otherwise), and in the refused case the result does not depend on
the underlying `_action()` implementation (it is never invoked). -/
theorem action_403_spec {Dict : Type} (s : SchemaOps Dict) (hni : NoImpl403 s)
    (id : Nat) (data : Dict) (filter : Option (List (String × String))) :
    (is403 (schemaGet s id) ↔ s.validate_can_read (some id) = false) ∧
    (is403 (schemaList s filter) ↔ s.validate_can_read none = false) ∧
    (is403 (schemaPost s data) ↔ s.validate_can_write none = false) ∧
    (is403 (schemaPut s id data) ↔ s.validate_can_write (some id) = false) ∧
    (is403 (schemaDelete s id) ↔ s.validate_can_write (some id) = false) ∧
    (s.validate_can_read (some id) = false →
      ∀ g, schemaGet { s with impl_get := g } id = schemaGet s id) ∧
    (s.validate_can_read none = false →
      ∀ g, schemaList { s with impl_list := g } filter = schemaList s filter) ∧
    (s.validate_can_write none = false →
      ∀ g, schemaPost { s with impl_create := g } data = schemaPost s data) ∧
    (s.validate_can_write (some id) = false →
      ∀ g, schemaPut { s with impl_update := g } id data = schemaPut s id data) ∧
    (s.validate_can_write (some id) = false →
      ∀ g, schemaDelete { s with impl_delete := g } id = schemaDelete s id) := by
  obtain ⟨h1, h2, h3, h4, h5⟩ := hni
  refine ⟨?_, ?_, ?_, ?_, ?_, ?_, ?_, ?_, ?_, ?_⟩
  · unfold schemaGet
    cases hv : s.validate_can_read (some id)
    · simp [hv, is403]
    · simp only [hv]
      simp
      exact h1 id
  · unfold schemaList
    cases hv : s.validate_can_read none
    · simp [hv, is403]
    · simp only [hv]
      simp
      exact h5 filter
  · unfold schemaPost
    cases hv : s.validate_can_write none
    · simp [hv, is403]
    · simp only [hv]
      simp
      exact h2 data
  · unfold schemaPut
    cases hv : s.validate_can_write (some id)
    · simp [hv, is403]
    · simp only [hv]
      simp
      exact h3 id data
  · unfold schemaDelete
    cases hv : s.validate_can_write (some id)
    · simp [hv, is403]
    · simp only [hv]
      simp
      exact h4 id
  · intro hv g; unfold schemaGet; simp [hv]
  · intro hv g; unfold schemaList; simp [hv]
  · intro hv g; unfold schemaPost; simp [hv]
  · intro hv g; unfold schemaPut; simp [hv]
  · intro hv g; unfold schemaDelete; simp [hv]

/-- A concrete schema for the C8 witness: public read, no write. -/
def witOps : SchemaOps Unit :=
  { name := "canal",
    validate_can_read := fun _ => true,
    validate_can_write := fun _ => false,
    impl_get := fun _ => Except.ok (),
    impl_create := fun _ => Except.ok (),
    impl_update := fun _ _ => Except.ok (),
    impl_delete := fun _ => Except.ok (),
    impl_list := fun _ => Except.ok () }

theorem witOps_no403 : NoImpl403 witOps :=
  ⟨fun _ h => h, fun _ h => h, fun _ _ h => h, fun _ h => h, fun _ h => h⟩

/-- C8 witness: `action_403_spec` applied to `witOps` at id 7. -/
theorem action_403_spec_witness :
    NoImpl403 witOps ∧
      ((is403 (schemaGet witOps 7) ↔ witOps.validate_can_read (some 7) = false) ∧
        (is403 (schemaList witOps none) ↔ witOps.validate_can_read none = false) ∧
        (is403 (schemaPost witOps ()) ↔ witOps.validate_can_write none = false) ∧
        (is403 (schemaPut witOps 7 ()) ↔ witOps.validate_can_write (some 7) = false) ∧
        (is403 (schemaDelete witOps 7) ↔ witOps.validate_can_write (some 7) = false) ∧
        (witOps.validate_can_read (some 7) = false →
          ∀ g, schemaGet { witOps with impl_get := g } 7 = schemaGet witOps 7) ∧
        (witOps.validate_can_read none = false →
          ∀ g, schemaList { witOps with impl_list := g } none = schemaList witOps none) ∧
        (witOps.validate_can_write none = false →
          ∀ g, schemaPost { witOps with impl_create := g } () = schemaPost witOps ()) ∧
        (witOps.validate_can_write (some 7) = false →
          ∀ g, schemaPut { witOps with impl_update := g } 7 () = schemaPut witOps 7 ()) ∧
        (witOps.validate_can_write (some 7) = false →
          ∀ g, schemaDelete { witOps with impl_delete := g } 7 = schemaDelete witOps 7)) :=
  ⟨witOps_no403, action_403_spec witOps witOps_no403 7 () none⟩

/-! ## C9: SchemaDB behaviour on a missing record -/

/-- C9: `_get`, `_update` and `_delete` raise a 404 `RESTException` when
no record with the given id exists, and in that case the store is
entirely unchanged: no attribute set, nothing deleted, no commit. -/
theorem db_missing_record_spec (name : String) (db : DBState) (id : Nat)
    (data : List (String × String)) (validateOk : Bool) (dump : DBRec → DBRec)
    (h : recordGetFromDb db id = none) :
    dbGet name db id dump = (db, Except.error ⟨404, noSuchIdMsg name id⟩) ∧
    dbUpdate name db id data validateOk dump =
      (db, Except.error ⟨404, noSuchIdMsg name id⟩) ∧
    dbDelete name db id = (db, Except.error ⟨404, noSuchIdMsg name id⟩) := by
  refine ⟨?_, ?_, ?_⟩
  · unfold dbGet; rw [h]
  · unfold dbUpdate; rw [h]
  · unfold dbDelete; rw [h]

/-- C9 witness: an empty table, id 5. -/
theorem db_missing_record_witness :
    recordGetFromDb ⟨[(3, [("name", "x")])], 0⟩ 5 = none ∧
      (dbGet "canal" ⟨[(3, [("name", "x")])], 0⟩ 5 id =
        (⟨[(3, [("name", "x")])], 0⟩, Except.error ⟨404, noSuchIdMsg "canal" 5⟩) ∧
      dbUpdate "canal" ⟨[(3, [("name", "x")])], 0⟩ 5 [("name", "y")] true id =
        (⟨[(3, [("name", "x")])], 0⟩, Except.error ⟨404, noSuchIdMsg "canal" 5⟩) ∧
      dbDelete "canal" ⟨[(3, [("name", "x")])], 0⟩ 5 =
        (⟨[(3, [("name", "x")])], 0⟩, Except.error ⟨404, noSuchIdMsg "canal" 5⟩)) :=
  ⟨rfl, db_missing_record_spec "canal" ⟨[(3, [("name", "x")])], 0⟩ 5 [("name", "y")] true id rfl⟩

/-! ## C10: immediate vs deferred Flask rule delivery -/

theorem foldl_routeCreate_app {T : Type} (rs : List (FlaskRule T)) :
    ∀ q l, rs.foldl flaskRouteCreate { queue := q, app := some l } =
      { queue := q, app := some (l ++ rs) } := by
  induction rs with
  | nil => intro q l; simp [List.foldl]
  | cons r rest ih =>
    intro q l
    simp only [List.foldl_cons, flaskRouteCreate]
    rw [ih]
    simp

theorem foldl_routeCreate_queue {T : Type} (rs : List (FlaskRule T)) :
    ∀ q, rs.foldl flaskRouteCreate { queue := q, app := none } =
      { queue := q ++ rs, app := none } := by
  induction rs with
  | nil => intro q; simp [List.foldl]
  | cons r rest ih =>
    intro q
    simp only [List.foldl_cons, flaskRouteCreate]
    rw [ih]
    simp

/-- C10: delivering a sequence of route creations with the Flask app
bound first (each rule added immediately) or bound last (each rule queued
and flushed by `init_app`) hands the app the same registrations, in the
same order. -/
theorem flask_defer_equiv (T : Type) (rs : List (FlaskRule T)) :
    flaskAppRules (rs.foldl flaskRouteCreate (flaskInitApp (FlaskState.empty T))) =
      flaskAppRules (flaskInitApp (rs.foldl flaskRouteCreate (FlaskState.empty T))) := by
  unfold FlaskState.empty flaskInitApp
  rw [foldl_routeCreate_app rs [] [], foldl_routeCreate_queue rs []]
  simp [flaskAppRules]

/-! ## Association-list lemmas for the documentation state -/

section DictLemmas

variable {α β : Type} [DecidableEq α] [BEq α] [LawfulBEq α]

theorem lookup_cons_self (k : α) (v : β) (l : List (α × β)) :
    List.lookup k ((k, v) :: l) = some v := by
  simp [List.lookup]

theorem lookup_cons_ne (k k' : α) (h : k ≠ k') (v : β) (l : List (α × β)) :
    List.lookup k ((k', v) :: l) = List.lookup k l := by
  have hb : (k == k') = false := beq_eq_false_iff_ne.mpr h
  simp [List.lookup, hb]

theorem lookup_dictSet_self (d : List (α × β)) (k : α) (v : β) :
    (dictSet d k v).lookup k = some v := by
  induction d with
  | nil => simp [dictSet, List.lookup]
  | cons kv rest ih =>
    obtain ⟨k', v'⟩ := kv
    unfold dictSet
    by_cases h : k' = k
    · rw [if_pos h, lookup_cons_self]
    · rw [if_neg h, lookup_cons_ne k k' (fun he => h he.symm), ih]

theorem lookup_dictSet_ne (d : List (α × β)) (k : α) (v : β) (k' : α) (h : k' ≠ k) :
    (dictSet d k v).lookup k' = d.lookup k' := by
  induction d with
  | nil =>
    rw [show dictSet ([] : List (α × β)) k v = [(k, v)] from rfl,
      lookup_cons_ne k' k h]
  | cons kv rest ih =>
    obtain ⟨k₀, v₀⟩ := kv
    unfold dictSet
    by_cases h0 : k₀ = k
    · subst h0
      rw [if_pos rfl, lookup_cons_ne k' k₀ h, lookup_cons_ne k' k₀ h]
    · rw [if_neg h0]
      by_cases h1 : k' = k₀
      · rw [h1, lookup_cons_self, lookup_cons_self]
      · rw [lookup_cons_ne k' k₀ h1, lookup_cons_ne k' k₀ h1, ih]

theorem lookup_isSome_dictSet (d : List (α × β)) (k k' : α) (v' : β)
    (h : (d.lookup k).isSome) : ((dictSet d k' v').lookup k).isSome := by
  by_cases he : k = k'
  · subst he
    rw [lookup_dictSet_self]
    rfl
  · rw [lookup_dictSet_ne d k' v' k he]
    exact h

theorem lookup_dictUpdate_left (d2 : List (α × β)) :
    ∀ d k, (List.lookup k d).isSome → ((dictUpdate d d2).lookup k).isSome := by
  induction d2 with
  | nil => intro d k h; exact h
  | cons kv rest ih =>
    intro d k h
    unfold dictUpdate
    simp only [List.foldl_cons]
    exact ih (dictSet d kv.1 kv.2) k (lookup_isSome_dictSet d k kv.1 kv.2 h)

theorem lookup_dictUpdate_right (d2 : List (α × β)) :
    ∀ d k, (List.lookup k d2).isSome → ((dictUpdate d d2).lookup k).isSome := by
  induction d2 with
  | nil => intro d k h; simp [List.lookup] at h
  | cons kv rest ih =>
    intro d k h
    obtain ⟨k₁, v₁⟩ := kv
    unfold dictUpdate
    simp only [List.foldl_cons]
    by_cases he : k = k₁
    · subst he
      exact lookup_dictUpdate_left rest (dictSet d k v₁) k
        (by rw [lookup_dictSet_self]; rfl)
    · rw [lookup_cons_ne k k₁ he] at h
      exact ih (dictSet d k₁ v₁) k h

theorem lookup_append_some (l₁ l₂ : List (α × β)) (k : α) (v : β)
    (h : l₁.lookup k = some v) : (l₁ ++ l₂).lookup k = some v := by
  induction l₁ with
  | nil => simp [List.lookup] at h
  | cons kv rest ih =>
    obtain ⟨k₀, v₀⟩ := kv
    by_cases he : k = k₀
    · subst he
      rw [lookup_cons_self] at h
      rw [List.cons_append, lookup_cons_self]
      exact h
    · rw [lookup_cons_ne k k₀ he] at h
      rw [List.cons_append, lookup_cons_ne k k₀ he]
      exact ih h

theorem lookup_append_none (l₁ l₂ : List (α × β)) (k : α)
    (h : l₁.lookup k = none) : (l₁ ++ l₂).lookup k = l₂.lookup k := by
  induction l₁ with
  | nil => rfl
  | cons kv rest ih =>
    obtain ⟨k₀, v₀⟩ := kv
    by_cases he : k = k₀
    · subst he
      rw [lookup_cons_self] at h
      exact absurd h (by simp)
    · rw [lookup_cons_ne k k₀ he] at h
      rw [List.cons_append, lookup_cons_ne k k₀ he]
      exact ih h

theorem lookup_mem (l : List (α × β)) (k : α) (v : β) (h : l.lookup k = some v) :
    (k, v) ∈ l := by
  induction l with
  | nil => simp [List.lookup] at h
  | cons kv rest ih =>
    obtain ⟨k₀, v₀⟩ := kv
    by_cases he : k = k₀
    · subst he
      rw [lookup_cons_self] at h
      obtain rfl : v₀ = v := Option.some.inj h
      exact List.mem_cons_self _ _
    · rw [lookup_cons_ne k k₀ he] at h
      exact List.mem_cons_of_mem _ (ih h)

theorem lookup_of_mem_nodup (l : List (α × β)) (k : α) (v : β)
    (hm : (k, v) ∈ l) (hn : (l.map Prod.fst).Nodup) : l.lookup k = some v := by
  induction l with
  | nil => simp at hm
  | cons kv rest ih =>
    obtain ⟨k₀, v₀⟩ := kv
    rw [List.map_cons, List.nodup_cons] at hn
    rcases List.mem_cons.mp hm with he | hm'
    · obtain ⟨rfl, rfl⟩ := Prod.mk.injEq .. ▸ he
      exact lookup_cons_self k v rest
    · have hk : k ≠ k₀ := by
        intro he
        subst he
        exact hn.1 (List.mem_map.mpr ⟨(k, v), hm', rfl⟩)
      rw [lookup_cons_ne k k₀ hk]
      exact ih hm' hn.2

end DictLemmas

/-! ## Membership facts about `exposedMethods` -/

theorem mem_exposedMethods (mm : List (String × List (String × MethodData)))
    (allowed : List String) (e : String × String × Option String × List (String × ParamData))
    (he : e ∈ exposedMethods mm allowed) :
    ∃ vt ∈ mm, ∃ rtmd ∈ vt.2,
      e = (vt.1, rtmd.1, rtmd.2.function, rtmd.2.params.getD []) ∧ vt.1 ∈ allowed := by
  rw [exposedMethods_eq_flatMap, List.mem_flatMap] at he
  obtain ⟨vt, hvt, he⟩ := he
  by_cases hm : vt.1 ∈ allowed
  · rw [if_pos hm] at he
    obtain ⟨rtmd, hrt, hre⟩ := List.mem_map.mp he
    exact ⟨vt, hvt, rtmd, hrt, hre.symm, hm⟩
  · rw [if_neg hm] at he
    simp at he

/-- A Python `_method_map_` dict: unique verb keys, unique route-type keys
within each verb. -/
def MMWF (mm : List (String × List (String × MethodData))) : Prop :=
  (mm.map Prod.fst).Nodup ∧ ∀ vt ∈ mm, (vt.2.map Prod.fst).Nodup

theorem methodGet_of_mem (mm : List (String × List (String × MethodData)))
    (hwf : MMWF mm) (vt : String × List (String × MethodData)) (hvt : vt ∈ mm)
    (rtmd : String × MethodData) (hrt : rtmd ∈ vt.2) :
    methodGet mm vt.1 rtmd.1 = some rtmd.2 := by
  unfold methodGet
  have h1 : mm.lookup vt.1 = some vt.2 :=
    lookup_of_mem_nodup mm vt.1 vt.2 hvt hwf.1
  rw [h1]
  exact lookup_of_mem_nodup vt.2 rtmd.1 rtmd.2 hrt (hwf.2 vt hvt)

theorem methodMapDefault_wf : MMWF methodMapDefault := by
  constructor
  · decide
  · decide

/-! ## C1: the concrete URL rules -/

theorem routeRuleFor_clean (bp : String) (api : APIMeta) (sname rt : String)
    (hbp : cleanSeg bp) (hn : cleanSeg api.name) (hv : cleanSeg api.version)
    (hs : cleanSeg sname) :
    routeRuleFor bp rt api sname =
      if rt = "general" then
        "/" ++ bp ++ "/" ++ api.name ++ "/" ++ api.version ++ "/" ++ sname
      else
        "/" ++ bp ++ "/" ++ api.name ++ "/" ++ api.version ++ "/" ++ sname ++ "/<string:id>" := by
  have hclean := pathRootGet_not_endslash api bp hbp hn hv
  have hres := pathResourceGet_clean _ sname hclean.1 hclean.2 hs
  have hroot := pathRootGet_clean api bp hbp hn hv
  simp only [routeRuleFor]
  rw [hres, hroot]

/-- C1: for every entry `(http_verb, route_type, ...)` of the schema's
exposed methods, `_routes_create` registers exactly one URL rule: the path
`/{base_path}/{api.name}/{api.version}/{schema.name}` (suffixed with
`/<string:id>` for "specific" routes), under the endpoint name
`{api.name}_{api.version}_{schema.name}_{http_verb}_{route_type[0]}`,
restricted to the single HTTP method `http_verb`. -/
theorem routes_create_spec (bp : String) (api : APIMeta) (restPath : String)
    (allowed : List String)
    (hbp : cleanSeg bp) (hn : cleanSeg api.name) (hv : cleanSeg api.version)
    (hs : cleanSeg (schemaNameOfPath restPath)) :
    routesCreate bp api ⟨restPath, allowed, methodMapDefault⟩ =
      (SchemaDesc.mk restPath allowed methodMapDefault).exposedMethods.map (fun e =>
        { rule :=
            if e.2.1 = "general" then
              "/" ++ bp ++ "/" ++ api.name ++ "/" ++ api.version ++ "/" ++
                schemaNameOfPath restPath
            else
              "/" ++ bp ++ "/" ++ api.name ++ "/" ++ api.version ++ "/" ++
                schemaNameOfPath restPath ++ "/<string:id>",
          endpoint := api.name ++ "_" ++ api.version ++ "_" ++ schemaNameOfPath restPath ++
            "_" ++ e.1 ++ "_" ++ (if e.2.1 = "general" then "g" else "s"),
          verb := e.1 }) := by
  unfold routesCreate
  apply List.map_congr_left
  intro e he
  obtain ⟨vt, hvt, rtmd, hrt, hee, -⟩ :=
    mem_exposedMethods methodMapDefault allowed e he
  have hrte : e.2.1 = rtmd.1 := by rw [hee]
  have hrt2 : rtmd.1 = "specific" ∨ rtmd.1 = "general" := by
    revert hrt
    have : vt ∈ methodMapDefault := hvt
    revert this
    simp only [methodMapDefault, List.mem_cons, List.not_mem_nil, or_false]
    rintro (rfl | rfl | rfl | rfl) <;> simp <;> rintro (rfl | rfl) <;> simp
  have hname : (SchemaDesc.mk restPath allowed methodMapDefault).name =
      schemaNameOfPath restPath := rfl
  rcases hrt2 with hr | hr <;>
    simp only [hname, routeRuleFor_clean bp api _ _ hbp hn hv hs, endpointName,
      hrte, hr, pyHead] <;>
    rfl

/-- C1 witness: base path "api", API app/v1, schema path "canal",
GET+POST allowed. -/
theorem routes_create_spec_witness :
    cleanSeg "api" ∧ cleanSeg "app" ∧ cleanSeg "v1" ∧
      cleanSeg (schemaNameOfPath "canal") ∧
      routesCreate "api" ⟨"app", "v1"⟩ ⟨"canal", ["GET", "POST"], methodMapDefault⟩ =
        (SchemaDesc.mk "canal" ["GET", "POST"] methodMapDefault).exposedMethods.map (fun e =>
          { rule :=
              if e.2.1 = "general" then
                "/" ++ "api" ++ "/" ++ "app" ++ "/" ++ "v1" ++ "/" ++
                  schemaNameOfPath "canal"
              else
                "/" ++ "api" ++ "/" ++ "app" ++ "/" ++ "v1" ++ "/" ++
                  schemaNameOfPath "canal" ++ "/<string:id>",
            endpoint := "app" ++ "_" ++ "v1" ++ "_" ++ schemaNameOfPath "canal" ++
              "_" ++ e.1 ++ "_" ++ (if e.2.1 = "general" then "g" else "s"),
            verb := e.1 }) :=
  ⟨by decide, by decide, by decide, by decide,
    routes_create_spec "api" ⟨"app", "v1"⟩ "canal" ["GET", "POST"]
      (by decide) (by decide) (by decide) (by decide)⟩

/-! ## C3: the documented paths compose to the registered rules -/

theorem osJoin2_from_empty (b : String) : osJoin2 "" b = b := by
  unfold osJoin2
  by_cases h : startsWithSlash b
  · rw [if_pos h]
  · rw [if_neg h, if_pos (Or.inl rfl)]
    cases b
    rfl

theorem docUrlRoute_eq (sname rt : String) :
    docUrlRoute sname rt = if rt = "general" then sname else sname ++ "/{id}" := by
  simp only [docUrlRoute, pathResourceGet, osJoin, List.foldl, osJoin2_from_empty]

/-- C3: for every API and exposed method, the single server URL written
by `doc_set_servers`, a "/" separator, and the documented OpenAPI path
concatenate to exactly the URL rule registered with the web framework,
the documented `{id}` placeholder standing where the rule has the
`<string:id>` matcher. -/
theorem doc_path_matches_rule (bp : String) (api : APIMeta) (sname rt : String)
    (h1 : pathRootGet api (some bp) ≠ "")
    (h2 : endsWithSlash (pathRootGet api (some bp)) = false)
    (hs : cleanSeg sname) :
    (docSetServers (APIState.init api) (some bp)).spec.servers =
        [pathRootGet api (some bp)] ∧
    (rt = "general" →
      pathRootGet api (some bp) ++ "/" ++ docUrlRoute sname rt =
        routeRuleFor bp rt api sname) ∧
    (rt ≠ "general" →
      pathRootGet api (some bp) ++ "/" ++ docUrlRoute sname rt =
        (pathRootGet api (some bp) ++ "/" ++ sname) ++ "/{id}" ∧
      routeRuleFor bp rt api sname =
        (pathRootGet api (some bp) ++ "/" ++ sname) ++ "/<string:id>") := by
  have hres := pathResourceGet_clean (pathRootGet api (some bp)) sname h1 h2 hs
  refine ⟨rfl, ?_, ?_⟩
  · intro hg
    rw [docUrlRoute_eq, if_pos hg]
    simp only [routeRuleFor, if_pos hg, hres]
  · intro hg
    rw [docUrlRoute_eq, if_neg hg]
    constructor
    · rw [← String.append_assoc]
    · simp only [routeRuleFor, if_neg hg, hres]

/-- C3 witness: base path "api", API app/v1, schema "canal", specific
route. -/
theorem doc_path_matches_rule_witness :
    (pathRootGet ⟨"app", "v1"⟩ (some "api") ≠ "" ∧
      endsWithSlash (pathRootGet ⟨"app", "v1"⟩ (some "api")) = false ∧
      cleanSeg "canal") ∧
    ((docSetServers (APIState.init ⟨"app", "v1"⟩) (some "api")).spec.servers =
        [pathRootGet ⟨"app", "v1"⟩ (some "api")] ∧
      ("specific" = "general" →
        pathRootGet ⟨"app", "v1"⟩ (some "api") ++ "/" ++ docUrlRoute "canal" "specific" =
          routeRuleFor "api" "specific" ⟨"app", "v1"⟩ "canal") ∧
      ("specific" ≠ "general" →
        pathRootGet ⟨"app", "v1"⟩ (some "api") ++ "/" ++ docUrlRoute "canal" "specific" =
          (pathRootGet ⟨"app", "v1"⟩ (some "api") ++ "/" ++ "canal") ++ "/{id}" ∧
        routeRuleFor "api" "specific" ⟨"app", "v1"⟩ "canal" =
          (pathRootGet ⟨"app", "v1"⟩ (some "api") ++ "/" ++ "canal") ++ "/<string:id>")) :=
  ⟨⟨by decide, by decide, by decide⟩,
    doc_path_matches_rule "api" ⟨"app", "v1"⟩ "canal" "specific"
      (by decide) (by decide) (by decide)⟩

/-! ## C6: contents of a documented operation -/

/-- C6: every documented operation carries a `parameters` list — the
required integer `id` path parameter exactly when the route type is
"specific", followed by one query parameter per entry of the method's
`params` map — and a `responses` dict keyed by exactly the HTTP codes of
the method's `responses` map; it carries a `requestBody` precisely when
the method-map entry has a non-`None` `data` key, which in the default
map happens exactly for POST/general and PUT/specific. -/
theorem doc_operation_spec (sname : String) (http_verb route_type : String)
    (h : (http_verb, route_type) ∈ methodMapPairs methodMapDefault) :
    ∃ md op, methodGet methodMapDefault http_verb route_type = some md ∧
      operationFor sname methodMapDefault http_verb route_type = some op ∧
      op.parameters =
        (if route_type = "specific" then
          [{ name := "id", inLoc := "path", description := sname ++ " ID",
             required := true, schemaType := some "integer" }]
        else []) ++
        (md.params.getD []).map (fun p =>
          { name := p.1, inLoc := "query", description := p.2.description,
            required := p.2.required, schemaType := none }) ∧
      op.responses.map Prod.fst = (md.responses.getD []).map Prod.fst ∧
      (op.requestBody.isSome ↔ md.data.isSome) ∧
      (md.data.isSome ↔
        ((http_verb, route_type) = ("POST", "general") ∨
          (http_verb, route_type) = ("PUT", "specific"))) := by
  have hp : (http_verb, route_type) = ("GET", "specific") ∨
      (http_verb, route_type) = ("GET", "general") ∨
      (http_verb, route_type) = ("POST", "general") ∨
      (http_verb, route_type) = ("PUT", "specific") ∨
      (http_verb, route_type) = ("DELETE", "specific") := by
    simpa [methodMapPairs, methodMapDefault] using h
  rcases hp with h | h | h | h | h <;>
    (rw [Prod.mk.injEq] at h; obtain ⟨h1, h2⟩ := h; subst h1; subst h2) <;>
    exact ⟨_, _, rfl, rfl, rfl, rfl, Iff.rfl, by decide⟩

/-- C6 witness: the GET/specific operation for a schema named "canal". -/
theorem doc_operation_spec_witness :
    ("GET", "specific") ∈ methodMapPairs methodMapDefault ∧
      (∃ md op, methodGet methodMapDefault "GET" "specific" = some md ∧
        operationFor "canal" methodMapDefault "GET" "specific" = some op ∧
        op.parameters =
          (if "specific" = "specific" then
            [{ name := "id", inLoc := "path", description := "canal" ++ " ID",
               required := true, schemaType := some "integer" }]
          else []) ++
          (md.params.getD []).map (fun p =>
            { name := p.1, inLoc := "query", description := p.2.description,
              required := p.2.required, schemaType := none }) ∧
        op.responses.map Prod.fst = (md.responses.getD []).map Prod.fst ∧
        (op.requestBody.isSome ↔ md.data.isSome) ∧
        (md.data.isSome ↔
          (("GET", "specific") = ("POST", "general") ∨
            ("GET", "specific") = ("PUT", "specific")))) :=
  ⟨by decide, doc_operation_spec "canal" "GET" "specific" (by decide)⟩

/-! ## C4: the hosted document reflects every registered schema -/

/-- The paths dict has an operation entry for `verb` at `url`. -/
def lookupOp (paths : List (String × List (String × Operation)))
    (url verb : String) : Prop :=
  ∃ ops, paths.lookup url = some ops ∧ (ops.lookup verb).isSome

theorem lookupOp_specPathAdd (sp : List (String × List (String × Operation)))
    (url' : String) (ops' : List (String × Operation)) (url verb : String)
    (h : lookupOp sp url verb) : lookupOp (specPathAdd sp url' ops') url verb := by
  obtain ⟨ops, h1, h2⟩ := h
  unfold specPathAdd
  cases hsp : sp.lookup url' with
  | some existing =>
    by_cases he : url = url'
    · subst he
      rw [h1] at hsp
      obtain rfl := Option.some.inj hsp
      exact ⟨dictUpdate ops ops', lookup_dictSet_self sp url _,
        lookup_dictUpdate_left ops' ops verb h2⟩
    · refine ⟨ops, ?_, h2⟩
      rw [lookup_dictSet_ne sp url' _ url he]
      exact h1
  | none =>
    exact ⟨ops, lookup_append_some sp [(url', ops')] url ops h1, h2⟩

theorem lookupOp_specPathAdd_self (sp : List (String × List (String × Operation)))
    (url : String) (ops : List (String × Operation)) (verb : String)
    (h : (ops.lookup verb).isSome) : lookupOp (specPathAdd sp url ops) url verb := by
  unfold specPathAdd
  cases hsp : sp.lookup url with
  | some existing =>
    exact ⟨dictUpdate existing ops, lookup_dictSet_self sp url _,
      lookup_dictUpdate_right ops existing verb h⟩
  | none =>
    refine ⟨ops, ?_, h⟩
    rw [lookup_append_none sp [(url, ops)] url hsp, lookup_cons_self]

theorem lookupOp_specFold_pres (d2 : List (String × List (String × Operation))) :
    ∀ sp url verb, lookupOp sp url verb →
      lookupOp (d2.foldl (fun sp e => specPathAdd sp e.1 e.2) sp) url verb := by
  induction d2 with
  | nil => intro sp url verb h; exact h
  | cons kv rest ih =>
    intro sp url verb h
    simp only [List.foldl_cons]
    exact ih _ url verb (lookupOp_specPathAdd sp kv.1 kv.2 url verb h)

theorem lookupOp_specFold_of_mem (d2 : List (String × List (String × Operation)))
    (sp : List (String × List (String × Operation))) (url : String)
    (ops : List (String × Operation)) (verb : String)
    (hm : (url, ops) ∈ d2) (h : (ops.lookup verb).isSome) :
    lookupOp (d2.foldl (fun sp e => specPathAdd sp e.1 e.2) sp) url verb := by
  obtain ⟨l₁, l₂, rfl⟩ := List.append_of_mem hm
  rw [List.foldl_append]
  simp only [List.foldl_cons]
  exact lookupOp_specFold_pres l₂ _ url verb (lookupOp_specPathAdd_self _ url ops verb h)

theorem lookupOp_localStep_pres (schema : SchemaDesc)
    (paths : List (String × List (String × Operation)))
    (e : String × String × Option String × List (String × ParamData))
    (url verb : String) (h : lookupOp paths url verb) :
    lookupOp (docSchemaPathsStep schema paths e) url verb := by
  obtain ⟨ops, h1, h2⟩ := h
  unfold docSchemaPathsStep
  have hp1 : lookupOp (if (paths.lookup (docUrlRoute schema.name e.2.1)).isSome then paths
      else dictSet paths (docUrlRoute schema.name e.2.1) []) url verb := by
    by_cases hu : (paths.lookup (docUrlRoute schema.name e.2.1)).isSome
    · rw [if_pos hu]
      exact ⟨ops, h1, h2⟩
    · rw [if_neg hu]
      by_cases he : url = docUrlRoute schema.name e.2.1
      · exact absurd (he ▸ h1 ▸ rfl : (paths.lookup (docUrlRoute schema.name e.2.1)).isSome = true) hu
      · refine ⟨ops, ?_, h2⟩
        rw [lookup_dictSet_ne paths _ _ url he]
        exact h1
  cases hop : operationFor schema.name schema.methodMap e.1 e.2.1 with
  | none => simpa only [hop] using hp1
  | some op =>
    simp only [hop]
    obtain ⟨ops1, hp1a, hp1b⟩ := hp1
    by_cases he : url = docUrlRoute schema.name e.2.1
    · subst he
      refine ⟨_, lookup_dictSet_self _ _ _, ?_⟩
      rw [hp1a]
      exact lookup_isSome_dictSet ops1 verb (pyLower e.1) op hp1b
    · refine ⟨ops1, ?_, hp1b⟩
      rw [lookup_dictSet_ne _ _ _ url he]
      exact hp1a

theorem lookupOp_localStep_self (schema : SchemaDesc)
    (paths : List (String × List (String × Operation)))
    (e : String × String × Option String × List (String × ParamData))
    (op : Operation)
    (hop : operationFor schema.name schema.methodMap e.1 e.2.1 = some op) :
    lookupOp (docSchemaPathsStep schema paths e)
      (docUrlRoute schema.name e.2.1) (pyLower e.1) := by
  unfold docSchemaPathsStep
  simp only [hop]
  refine ⟨_, lookup_dictSet_self _ _ _, ?_⟩
  rw [lookup_dictSet_self _ _ _]
  rfl

theorem lookupOp_localFold_pres (l : List (String × String × Option String × List (String × ParamData)))
    (schema : SchemaDesc) :
    ∀ paths url verb, lookupOp paths url verb →
      lookupOp (l.foldl (docSchemaPathsStep schema) paths) url verb := by
  induction l with
  | nil => intro paths url verb h; exact h
  | cons e rest ih =>
    intro paths url verb h
    simp only [List.foldl_cons]
    exact ih _ url verb (lookupOp_localStep_pres schema paths e url verb h)

theorem operationFor_of_methodGet (sname : String)
    (mm : List (String × List (String × MethodData))) (v rt : String)
    (md : MethodData) (h : methodGet mm v rt = some md) :
    ∃ op, operationFor sname mm v rt = some op := by
  unfold operationFor docGetOperationParams docGetOperationRequestBody docGetOperationResponse
  rw [h]
  exact ⟨_, rfl⟩

theorem lookupOp_local_of_mem (schema : SchemaDesc) (hwf : MMWF schema.methodMap)
    (e : String × String × Option String × List (String × ParamData))
    (he : e ∈ schema.exposedMethods) :
    lookupOp (docSchemaPathsLocal schema) (docUrlRoute schema.name e.2.1) (pyLower e.1) := by
  obtain ⟨vt, hvt, rtmd, hrt, hee, -⟩ :=
    mem_exposedMethods schema.methodMap schema.allowedMethods e he
  have hmg : methodGet schema.methodMap e.1 e.2.1 = some rtmd.2 := by
    rw [hee]
    exact methodGet_of_mem schema.methodMap hwf vt hvt rtmd hrt
  obtain ⟨op, hop⟩ := operationFor_of_methodGet schema.name schema.methodMap e.1 e.2.1 rtmd.2 hmg
  unfold docSchemaPathsLocal
  obtain ⟨l₁, l₂, hsplit⟩ := List.append_of_mem he
  rw [hsplit, List.foldl_append]
  simp only [List.foldl_cons]
  exact lookupOp_localFold_pres l₂ schema _ _ _
    (lookupOp_localStep_self schema _ e op hop)

/-- The spec document carries the schema: its component entry and one
operation per exposed method. -/
def SpecHas (spec : SpecDoc) (s : SchemaDesc) : Prop :=
  s.name ∈ spec.componentSchemas ∧
  ∀ e ∈ s.exposedMethods,
    lookupOp spec.paths (docUrlRoute s.name e.2.1) (pyLower e.1)

theorem SpecHas_mono (spec : SpecDoc) (s s' : SchemaDesc) (h : SpecHas spec s) :
    SpecHas (docAddSchemaSpec spec s') s := by
  refine ⟨List.mem_append_left _ h.1, fun e he => ?_⟩
  exact lookupOp_specFold_pres (docSchemaPathsLocal s') spec.paths _ _ (h.2 e he)

theorem SpecHas_new (spec : SpecDoc) (s : SchemaDesc) (hwf : MMWF s.methodMap) :
    SpecHas (docAddSchemaSpec spec s) s := by
  refine ⟨List.mem_append_right _ (List.mem_singleton.mpr rfl), fun e he => ?_⟩
  obtain ⟨ops, h1, h2⟩ := lookupOp_local_of_mem s hwf e he
  exact lookupOp_specFold_of_mem (docSchemaPathsLocal s) spec.paths _ ops _
    (lookup_mem _ _ _ h1) h2

/-- The documentation invariant of an exposer: for every registered API,
the hosted document is the frozen copy of the current spec, and the spec
carries every schema registered under that API. -/
def ExposerDocInv (st : ExposerState) : Prop :=
  ∀ k ast schemas, st.apis.lookup k = some (ast, schemas) →
    ast.snapshot = some ast.spec ∧ ∀ s ∈ schemas, SpecHas ast.spec s

theorem ExposerDocInv_registerAPI (st : ExposerState) (api : APIMeta)
    (h : ExposerDocInv st) : ExposerDocInv (registerAPI st api) := by
  intro k ast schemas hl
  by_cases hk : k = api.key
  · subst hk
    rw [show (registerAPI st api).apis =
        dictSet st.apis api.key (docSetServers (APIState.init api) (some st.basePath), [])
      from rfl, lookup_dictSet_self] at hl
    obtain ⟨h1, h2⟩ := Prod.mk.injEq .. ▸ Option.some.inj hl
    subst h1
    subst h2
    exact ⟨rfl, by intro s hs; simp at hs⟩
  · rw [show (registerAPI st api).apis =
        dictSet st.apis api.key (docSetServers (APIState.init api) (some st.basePath), [])
      from rfl, lookup_dictSet_ne st.apis api.key _ k hk] at hl
    exact h k ast schemas hl

theorem ExposerDocInv_registerSchema (st st' : ExposerState) (api : APIMeta)
    (schema : SchemaDesc) (hwf : MMWF schema.methodMap)
    (h : ExposerDocInv st) (hreg : registerSchema st api schema = Except.ok st') :
    ExposerDocInv st' := by
  unfold registerSchema at hreg
  set st1 := if (st.apis.lookup api.key).isSome then st else registerAPI st api with hst1
  have hinv1 : ExposerDocInv st1 := by
    rw [hst1]
    by_cases hk : (st.apis.lookup api.key).isSome
    · rw [if_pos hk]
      exact h
    · rw [if_neg hk]
      exact ExposerDocInv_registerAPI st api h
  unfold registerSchemaAux at hreg
  cases hlk : st1.apis.lookup api.key with
  | none =>
    rw [hlk] at hreg
    exact absurd hreg (by simp)
  | some entry =>
    obtain ⟨astate, schemas⟩ := entry
    rw [hlk] at hreg
    dsimp only at hreg
    by_cases hdup : schema.name ∈ schemas.map SchemaDesc.name
    · rw [if_pos hdup] at hreg
      exact absurd hreg (by simp)
    · rw [if_neg hdup] at hreg
      obtain rfl := Except.ok.inj hreg
      intro k ast schemas' hl
      simp only at hl
      by_cases hk : k = api.key
      · subst hk
        rw [lookup_dictSet_self] at hl
        obtain ⟨h1, h2⟩ := Prod.mk.injEq .. ▸ Option.some.inj hl
        subst h1
        subst h2
        refine ⟨rfl, fun s hs => ?_⟩
        rcases List.mem_append.mp hs with hs | hs
        · exact SpecHas_mono astate.spec s schema ((hinv1 api.key astate schemas hlk).2 s hs)
        · obtain rfl := List.mem_singleton.mp hs
          exact SpecHas_new astate.spec s hwf
      · rw [lookup_dictSet_ne st1.apis api.key _ k hk] at hl
        exact hinv1 k ast schemas' hl

theorem ExposerDocInv_processRegs (regs : List (APIMeta × SchemaDesc)) :
    ∀ st, ExposerDocInv st → (∀ r ∈ regs, MMWF r.2.methodMap) →
      ExposerDocInv (processRegs st regs) := by
  induction regs with
  | nil => intro st h _; exact h
  | cons r rest ih =>
    intro st h hwf
    unfold processRegs
    cases hreg : registerSchema st r.1 r.2 with
    | error e =>
      exact ih st h (fun r' hr' => hwf r' (List.mem_cons_of_mem r hr'))
    | ok st' =>
      exact ih st'
        (ExposerDocInv_registerSchema st st' r.1 r.2 (hwf r (List.mem_cons_self r rest)) h hreg)
        (fun r' hr' => hwf r' (List.mem_cons_of_mem r hr'))

/-- C4: after any sequence of `register_schema` calls, every API's hosted
document (`doc_view_fn`) is the frozen copy of its current spec, whose
schema components include an entry named `schema.name` for every schema
registered so far under that API, and whose paths include an operation
entry for every `(http_verb, route_type)` pair of each such schema's
exposed methods. -/
theorem registration_keeps_docs_synced (bp : String)
    (regs : List (APIMeta × SchemaDesc))
    (hwf : ∀ r ∈ regs, MMWF r.2.methodMap) :
    ∀ k ast schemas,
      (processRegs (ExposerState.init bp) regs).apis.lookup k = some (ast, schemas) →
      ast.snapshot = some ast.spec ∧
      ∀ s ∈ schemas, s.name ∈ ast.spec.componentSchemas ∧
        ∀ e ∈ s.exposedMethods,
          ∃ ops, ast.spec.paths.lookup (docUrlRoute s.name e.2.1) = some ops ∧
            (ops.lookup (pyLower e.1)).isSome := by
  have hinit : ExposerDocInv (ExposerState.init bp) := by
    intro k ast schemas hl
    simp [ExposerState.init, List.lookup] at hl
  have hfin := ExposerDocInv_processRegs regs (ExposerState.init bp) hinit hwf
  intro k ast schemas hl
  obtain ⟨h1, h2⟩ := hfin k ast schemas hl
  exact ⟨h1, fun s hs => ⟨(h2 s hs).1, (h2 s hs).2⟩⟩

/-- C4 witness: a single registration of schema "canal" (GET allowed)
under API app/v1 with base path "api". -/
theorem registration_keeps_docs_synced_witness :
    (∀ r ∈ [((⟨"app", "v1"⟩ : APIMeta),
        (⟨"canal", ["GET"], methodMapDefault⟩ : SchemaDesc))], MMWF r.2.methodMap) ∧
    (∀ k ast schemas,
      (processRegs (ExposerState.init "api")
        [((⟨"app", "v1"⟩ : APIMeta),
          (⟨"canal", ["GET"], methodMapDefault⟩ : SchemaDesc))]).apis.lookup k =
          some (ast, schemas) →
      ast.snapshot = some ast.spec ∧
      ∀ s ∈ schemas, s.name ∈ ast.spec.componentSchemas ∧
        ∀ e ∈ s.exposedMethods,
          ∃ ops, ast.spec.paths.lookup (docUrlRoute s.name e.2.1) = some ops ∧
            (ops.lookup (pyLower e.1)).isSome) := by
  constructor
  · intro r hr
    obtain rfl := List.mem_singleton.mp hr
    exact methodMapDefault_wf
  · exact registration_keeps_docs_synced "api" _
      (by
        intro r hr
        obtain rfl := List.mem_singleton.mp hr
        exact methodMapDefault_wf)

end Restlink
